import Mathlib

/-!
Shallow embedding of fclones' `src/file.rs` (file-identity and
physical-location metadata layer).

Modelling conventions:
* Machine integers (`u64`, `u128`, `usize`) are `Nat`, with an explicit
  `% 2^w` exactly where the Rust code truncates or may overflow.
* Fallible Rust functions (`io::Result<T>`) are `Except IoError T`.
  OS queries (metadata reads, extent queries) are external inputs, so the
  embedding of a function performing such a query takes the query's
  outcome as an explicit parameter.
* The `Log` sink is modelled by returning the list of warnings emitted.
* Rust's plain arithmetic on `u64` is embedded with the release-profile
  semantics (wrap modulo `2^64`); debug builds would panic instead.
-/

/-- Error kinds distinguished by `file.rs`: it compares `e.kind()` against
`ErrorKind::NotFound` and treats everything else uniformly. -/
inductive ErrorKind where
  | notFound
  | permissionDenied
  | other
deriving DecidableEq, Repr

/-- Model of `std::io::Error`: a kind plus a message. -/
structure IoError where
  kind : ErrorKind
  msg : String
deriving DecidableEq, Repr

/-- `FileId` from `file.rs`: inode is `u128`, device is `u64`. -/
structure FileId where
  inode : Nat
  device : Nat
deriving DecidableEq, Repr

/-- `file_id_or_log_err` from `file.rs` lines 269-278, with the outcome of
`FileId::new(file)` passed in as `res` and the warnings emitted to the log
returned alongside the result. -/
def file_id_or_log_err (res : Except IoError FileId) : Option FileId × List IoError :=
  match res with
  | .ok id => (some id, [])
  | .error e => if e.kind = ErrorKind.notFound then (none, []) else (none, [e])

/-- `FileMetadata` (unix variant) from `file.rs`: exposes `len` (u64) and
`inode_id` (u128); on unix both accessors always succeed. -/
structure FileMetadata where
  len : Nat
  inode_id : Nat
deriving DecidableEq, Repr

/-- `DiskDevice`: the only field this layer reads is `index` (a `usize`). -/
structure DiskDevice where
  index : Nat
deriving DecidableEq, Repr

/-- `DiskDevices`: the only operation this layer uses is `get_by_path`. -/
structure DiskDevices where
  get_by_path : String → DiskDevice

/-- `OFFSET_MASK` from `file.rs` line 358. -/
def OFFSET_MASK : Nat := 0x0000FFFFFFFFFFFF

/-- `DEVICE_MASK` from `file.rs` line 361. -/
def DEVICE_MASK : Nat := 0xFFFF000000000000

/-- `FileInfo` from `file.rs` lines 337-344. -/
structure FileInfo where
  path : String
  len : Nat
  location : Nat
deriving DecidableEq, Repr

/-- `FileInfo::new` from `file.rs` lines 364-374.  The outcome of
`FileMetadata::new(&path)` is passed in as `metadataRes`.  The `usize`
device index is cast `as u64` (`% 2^64`), the `u128` inode id is cast
`as u64` (`% 2^64`), and the `u64` shift `device_index << 48` keeps only
the low 64 bits of the product. -/
def FileInfo.new (path : String) (devices : DiskDevices)
    (metadataRes : Except IoError FileMetadata) : Except IoError FileInfo :=
  let device_index := (devices.get_by_path path).index % 2^64
  match metadataRes with
  | .error e => .error e
  | .ok metadata =>
      let inode_id := metadata.inode_id % 2^64
      .ok { path := path
            len := metadata.len
            location := ((device_index <<< 48) % 2^64) ||| (inode_id &&& OFFSET_MASK) }

/-- `FileInfo::get_device_index` from `file.rs` lines 377-379. -/
def FileInfo.get_device_index (info : FileInfo) : Nat :=
  info.location >>> 48

/-- A fiemap extent; the only field `file.rs` reads is `fe_physical` (u64). -/
structure Extent where
  fe_physical : Nat
deriving DecidableEq, Repr

/-- `get_physical_file_location` from `file.rs` lines 410-416.  The fiemap
iterator is passed in as the outcome of `fiemap::fiemap(..)`: either an
error, or the list of per-extent results it would yield. -/
def get_physical_file_location
    (extents : Except IoError (List (Except IoError Extent))) :
    Except IoError (Option Nat) :=
  match extents with
  | .error e => .error e
  | .ok [] => .ok none
  | .ok (.error e :: _) => .error e
  | .ok (.ok fe :: _) => .ok (some fe.fe_physical)

/-- `FileInfo::fetch_physical_location` from `file.rs` lines 382-388, with
the outcome of `get_physical_file_location(self.path())` passed in as
`physRes`.  Returns the updated record together with the returned
`self.location` value. -/
def FileInfo.fetch_physical_location (info : FileInfo)
    (physRes : Except IoError (Option Nat)) : Except IoError (FileInfo × Nat) :=
  match physRes with
  | .error e => .error e
  | .ok none => .ok (info, info.location)
  | .ok (some new_location) =>
      let loc := (info.location &&& DEVICE_MASK) ||| ((new_location >>> 8) &&& OFFSET_MASK)
      .ok ({ info with location := loc }, loc)

/-- `file_info_or_log_err` from `file.rs` lines 393-406, with the outcome
of `FileInfo::new(file, devices)` passed in as `res`. -/
def file_info_or_log_err (res : Except IoError FileInfo) : Option FileInfo × List IoError :=
  match res with
  | .ok info => (some info, [])
  | .error e => if e.kind = ErrorKind.notFound then (none, []) else (none, [e])

/-- `FileHash` from `file.rs` line 419: a `u128` newtype. -/
structure FileHash where
  val : Nat
deriving DecidableEq, Repr

/-- `impl BitXor for FileHash` from `file.rs` lines 443-449: the code
computes `rhs.0 ^ self.0`. -/
def FileHash.bitxor (self rhs : FileHash) : FileHash :=
  ⟨rhs.val ^^^ self.val⟩

/-- C7: XOR combination of hashes is self-inverse ((a xor b) xor b = a)
and order-independent (a xor b = b xor a). -/
theorem fileHash_bitxor_self_inverse_comm (a b : FileHash) :
    (a.bitxor b).bitxor b = a ∧ a.bitxor b = b.bitxor a := by
  obtain ⟨x⟩ := a
  obtain ⟨y⟩ := b
  constructor
  · simp only [FileHash.bitxor, FileHash.mk.injEq]
    rw [← Nat.xor_assoc, Nat.xor_self, Nat.zero_xor]
  · simp only [FileHash.bitxor, FileHash.mk.injEq]
    exact Nat.xor_comm y x

/-- C1: when resolving a `FileId` or building a `FileInfo` fails with a
not-found error, the result is `None` with no log entry; any other error is
logged as one warning and the result is `None`; on success nothing is
logged.  In every case a plain `Option` is returned, so the error is never
propagated to the caller. -/
theorem or_log_err_drops_errors :
    (∀ e : IoError, e.kind = ErrorKind.notFound →
      file_id_or_log_err (Except.error e) = (none, []) ∧
      file_info_or_log_err (Except.error e) = (none, [])) ∧
    (∀ e : IoError, e.kind ≠ ErrorKind.notFound →
      file_id_or_log_err (Except.error e) = (none, [e]) ∧
      file_info_or_log_err (Except.error e) = (none, [e])) ∧
    (∀ id : FileId, file_id_or_log_err (Except.ok id) = (some id, [])) ∧
    (∀ info : FileInfo, file_info_or_log_err (Except.ok info) = (some info, [])) := by
  refine ⟨fun e he => ?_, fun e he => ?_, fun id => rfl, fun info => rfl⟩
  · simp [file_id_or_log_err, file_info_or_log_err, he]
  · simp [file_id_or_log_err, file_info_or_log_err, he]

/-- Witness for C1 at concrete errors of both kinds. -/
theorem or_log_err_drops_errors_witness :
    file_id_or_log_err (Except.error ⟨ErrorKind.notFound, "gone"⟩) = (none, []) ∧
    file_info_or_log_err (Except.error ⟨ErrorKind.permissionDenied, "denied"⟩) =
      (none, [⟨ErrorKind.permissionDenied, "denied"⟩]) :=
  ⟨(or_log_err_drops_errors.1 ⟨ErrorKind.notFound, "gone"⟩ rfl).1,
   (or_log_err_drops_errors.2.1 ⟨ErrorKind.permissionDenied, "denied"⟩ (by decide)).2⟩

/-- C4: on a file with zero data extents, `get_physical_file_location`
returns `Ok(None)` and `fetch_physical_location` leaves `location` (and the
whole record) unchanged, returning success. -/
theorem fetch_physical_location_no_extents (info : FileInfo) :
    get_physical_file_location (Except.ok []) = Except.ok none ∧
    info.fetch_physical_location (Except.ok none) = Except.ok (info, info.location) :=
  ⟨rfl, rfl⟩

/-! ### Bit-packing helper lemmas -/

theorem offsetMask_eq : OFFSET_MASK = 2^48 - 1 := by norm_num [OFFSET_MASK]

theorem deviceMask_eq : DEVICE_MASK = (2^16 - 1) <<< 48 := by
  norm_num [DEVICE_MASK, Nat.shiftLeft_eq]

theorem and_offsetMask (i : Nat) : i &&& OFFSET_MASK = i % 2^48 := by
  rw [offsetMask_eq, Nat.and_pow_two_sub_one_eq_mod]

theorem shiftLeft_or_eq_add (a b k : Nat) (hb : b < 2^k) :
    (a <<< k) ||| b = a * 2^k + b := by
  rw [Nat.shiftLeft_eq, Nat.mul_comm, ← Nat.mul_add_lt_is_or hb, Nat.mul_comm]

theorem and_deviceMask (loc : Nat) (h : loc < 2^64) :
    loc &&& DEVICE_MASK = (loc >>> 48) <<< 48 := by
  rw [deviceMask_eq]
  apply Nat.eq_of_testBit_eq
  intro j
  simp only [Nat.testBit_and, Nat.testBit_shiftLeft, Nat.testBit_shiftRight,
    Nat.testBit_two_pow_sub_one]
  by_cases h48 : 48 ≤ j
  · have hj : 48 + (j - 48) = j := by omega
    rw [hj]
    by_cases h64 : j < 64
    · have : j - 48 < 16 := by omega
      simp [h48, this]
    · have : loc.testBit j = false :=
        Nat.testBit_lt_two_pow (lt_of_lt_of_le h (Nat.pow_le_pow_right (by norm_num) (by omega)))
      simp [this]
  · simp [h48]

theorem packed_location_eq (d i : Nat) :
    (d <<< 48) ||| (i &&& OFFSET_MASK) = d * 2^48 + i % 2^48 := by
  rw [and_offsetMask, shiftLeft_or_eq_add]
  exact Nat.mod_lt _ (by positivity)

theorem get_device_index_of_packed (p : String) (flen d i : Nat) :
    FileInfo.get_device_index ⟨p, flen, (d <<< 48) ||| (i &&& OFFSET_MASK)⟩ = d := by
  rw [FileInfo.get_device_index, packed_location_eq, Nat.shiftRight_eq_div_pow,
    Nat.mul_comm, Nat.mul_add_div (by positivity),
    Nat.div_eq_of_lt (Nat.mod_lt _ (by positivity)), Nat.add_zero]

theorem fileInfo_new_location (p : String) (d i flen : Nat) :
    FileInfo.new p ⟨fun _ => ⟨d⟩⟩ (Except.ok ⟨flen, i⟩) =
      Except.ok ⟨p, flen, ((d % 65536) <<< 48) ||| (i &&& OFFSET_MASK)⟩ := by
  simp only [FileInfo.new, Except.ok.injEq, FileInfo.mk.injEq, true_and]
  rw [and_offsetMask, and_offsetMask,
    Nat.mod_mod_of_dvd i (by norm_num : (2:Nat)^48 ∣ 2^64),
    Nat.shiftLeft_eq, Nat.shiftLeft_eq,
    show (2:Nat)^64 = 2^16 * 2^48 by norm_num,
    Nat.mul_mod_mul_right,
    Nat.mod_mod_of_dvd d ⟨2^48, rfl⟩]
  norm_num

theorem or_low_shiftRight (x r : Nat) (hr : r < 2^48) :
    ((x <<< 48) ||| r) >>> 48 = x := by
  rw [shiftLeft_or_eq_add _ _ _ hr, Nat.shiftRight_eq_div_pow, Nat.mul_comm,
    Nat.mul_add_div (by positivity), Nat.div_eq_of_lt hr, Nat.add_zero]

theorem or_low_mod (x r : Nat) (hr : r < 2^48) :
    ((x <<< 48) ||| r) % 2^48 = r := by
  rw [shiftLeft_or_eq_add _ _ _ hr, Nat.mul_comm, Nat.mul_add_mod, Nat.mod_eq_of_lt hr]

/-- C2: for a device index below 2^16 and any inode id, `FileInfo::new`
packs `location = device_index << 48 | (inode_id & 0x0000FFFFFFFFFFFF)`,
and `get_device_index` recovers exactly the packed device index. -/
theorem fileInfo_new_packs_and_recovers_device_index (p : String) (d i flen : Nat)
    (hd : d < 65536) :
    FileInfo.new p ⟨fun _ => ⟨d⟩⟩ (Except.ok ⟨flen, i⟩) =
      Except.ok ⟨p, flen, (d <<< 48) ||| (i &&& OFFSET_MASK)⟩ ∧
    FileInfo.get_device_index ⟨p, flen, (d <<< 48) ||| (i &&& OFFSET_MASK)⟩ = d := by
  constructor
  · rw [fileInfo_new_location, Nat.mod_eq_of_lt hd]
  · exact get_device_index_of_packed p flen d i

/-- Witness for C2 at device index 7, inode 123456789, length 10. -/
theorem fileInfo_new_packs_witness :
    FileInfo.new "a" ⟨fun _ => ⟨7⟩⟩ (Except.ok ⟨10, 123456789⟩) =
      Except.ok ⟨"a", 10, (7 <<< 48) ||| (123456789 &&& OFFSET_MASK)⟩ ∧
    FileInfo.get_device_index ⟨"a", 10, (7 <<< 48) ||| (123456789 &&& OFFSET_MASK)⟩ = 7 :=
  fileInfo_new_packs_and_recovers_device_index "a" 7 123456789 10 (by norm_num)

/-- C10: for a device index of at least 65536, `FileInfo::new` still
succeeds, but the `u64` shift by 48 keeps only the index modulo 2^16, so
`get_device_index` returns `index % 65536`, not the original index. -/
theorem fileInfo_new_truncates_large_device_index (p : String) (d i flen : Nat)
    (h1 : 65536 ≤ d) :
    FileInfo.new p ⟨fun _ => ⟨d⟩⟩ (Except.ok ⟨flen, i⟩) =
      Except.ok ⟨p, flen, ((d % 65536) <<< 48) ||| (i &&& OFFSET_MASK)⟩ ∧
    FileInfo.get_device_index ⟨p, flen, ((d % 65536) <<< 48) ||| (i &&& OFFSET_MASK)⟩ =
      d % 65536 ∧
    d % 65536 ≠ d := by
  refine ⟨fileInfo_new_location p d i flen,
    get_device_index_of_packed p flen (d % 65536) i, ?_⟩
  have h : d % 65536 < 65536 := Nat.mod_lt _ (by norm_num)
  omega

/-- Witness for C10 at device index 65537 (truncated to 1). -/
theorem fileInfo_new_truncates_witness :
    FileInfo.new "a" ⟨fun _ => ⟨65537⟩⟩ (Except.ok ⟨3, 5⟩) =
      Except.ok ⟨"a", 3, ((65537 % 65536) <<< 48) ||| (5 &&& OFFSET_MASK)⟩ ∧
    FileInfo.get_device_index ⟨"a", 3, ((65537 % 65536) <<< 48) ||| (5 &&& OFFSET_MASK)⟩ =
      65537 % 65536 ∧
    65537 % 65536 ≠ 65537 :=
  fileInfo_new_truncates_large_device_index "a" 65537 5 3 (by norm_num)

/-- C3: when the file has at least one data extent,
`get_physical_file_location` yields the first extent's physical offset, and
`fetch_physical_location` replaces exactly the low 48 bits of `location`
with bits 8..56 of that offset while leaving the top 16 bits unchanged. -/
theorem fetch_physical_location_replaces_low_bits (info : FileInfo) (phys : Nat)
    (rest : List (Except IoError Extent)) (hloc : info.location < 2^64) :
    get_physical_file_location (Except.ok (Except.ok ⟨phys⟩ :: rest)) =
      Except.ok (some phys) ∧
    ∃ loc2,
      info.fetch_physical_location (Except.ok (some phys)) =
        Except.ok ({ info with location := loc2 }, loc2) ∧
      loc2 >>> 48 = info.location >>> 48 ∧
      loc2 % 2^48 = (phys >>> 8) % 2^48 := by
  refine ⟨rfl, (info.location &&& DEVICE_MASK) ||| ((phys >>> 8) &&& OFFSET_MASK),
    rfl, ?_, ?_⟩
  · rw [and_deviceMask _ hloc, and_offsetMask]
    exact or_low_shiftRight _ _ (Nat.mod_lt _ (by positivity))
  · rw [and_deviceMask _ hloc, and_offsetMask]
    exact or_low_mod _ _ (Nat.mod_lt _ (by positivity))

/-- Witness for C3 at a concrete record and physical offset. -/
theorem fetch_physical_location_replaces_low_bits_witness :
    get_physical_file_location (Except.ok (Except.ok ⟨1000000⟩ :: [])) =
      Except.ok (some 1000000) ∧
    ∃ loc2,
      FileInfo.fetch_physical_location ⟨"a", 10, (3 <<< 48) ||| 5⟩ (Except.ok (some 1000000)) =
        Except.ok ({ path := "a", len := 10, location := loc2 }, loc2) ∧
      loc2 >>> 48 = ((3 <<< 48) ||| 5 : Nat) >>> 48 ∧
      loc2 % 2^48 = ((1000000 : Nat) >>> 8) % 2^48 :=
  fetch_physical_location_replaces_low_bits ⟨"a", 10, (3 <<< 48) ||| 5⟩ 1000000 []
    (by decide)

/-! ### FileHash text serialization -/

/-- Lowercase hexadecimal digit character for a value in 0..15, as emitted
by Rust's `{:x}` formatting. -/
def hexDigitChar (d : Nat) : Char :=
  if d < 10 then Char.ofNat (48 + d) else Char.ofNat (87 + d)

/-- The `k` least-significant base-16 digits of `h`, most significant
first, zero-padded to width `k`: the digit string `{:0kx}` produces for a
value below `16^k`. -/
def toHexDigits : Nat → Nat → List Char
  | 0, _ => []
  | k+1, h => toHexDigits k (h / 16) ++ [hexDigitChar (h % 16)]

/-- `impl Display for FileHash` from `file.rs` lines 437-441:
`format!("{:032x}", self.0)` (with the default formatter options `f.pad`
is the identity). -/
def fileHash_display (h : FileHash) : String :=
  String.mk (toHexDigits 32 h.val)

/-- Value of a base-16 digit character, as accepted by
`char::to_digit(16)` inside `from_str_radix`: `0-9`, `a-f` and `A-F`. -/
def hexDigitValue (c : Char) : Option Nat :=
  if 48 ≤ c.toNat ∧ c.toNat ≤ 57 then some (c.toNat - 48)
  else if 97 ≤ c.toNat ∧ c.toNat ≤ 102 then some (c.toNat - 87)
  else if 65 ≤ c.toNat ∧ c.toNat ≤ 70 then some (c.toNat - 55)
  else none

/-- Digit-accumulation loop of `u128::from_str_radix(s, 16)`: checked
multiply-and-add over the digits, failing on a non-digit character or on
overflow past `u128::MAX`. -/
def parseHexDigits : List Char → Nat → Option Nat
  | [], acc => some acc
  | c :: cs, acc =>
    match hexDigitValue c with
    | none => none
    | some d =>
      if acc * 16 + d < 2^128 then parseHexDigits cs (acc * 16 + d) else none

/-- `u128::from_str_radix(s, 16)`: an empty string fails; one leading '+'
is skipped (at least one digit must remain); '-' is not special for an
unsigned type and fails as an invalid digit. -/
def from_str_radix_16 (s : List Char) : Option Nat :=
  match s with
  | [] => none
  | c :: rest =>
    if c = '+' then (if rest.isEmpty then none else parseHexDigits rest 0)
    else parseHexDigits (c :: rest) 0

/-- `impl Deserialize for FileHash` from `file.rs` lines 460-469: the
string is parsed with `u128::from_str_radix(s, 16)`; a parse failure
becomes a format error (`none`). -/
def fileHash_deserialize (s : String) : Option FileHash :=
  (from_str_radix_16 s.toList).map FileHash.mk

/-- Characters `0-9` and `a-f`: what "lowercase hex digit" means in the
spec's serialized-form contract. -/
def isLowerHexDigit (c : Char) : Bool :=
  (48 ≤ c.toNat && c.toNat ≤ 57) || (97 ≤ c.toNat && c.toNat ≤ 102)

theorem toHexDigits_length (k h : Nat) : (toHexDigits k h).length = k := by
  induction k generalizing h with
  | zero => rfl
  | succ k ih => simp [toHexDigits, ih]

theorem hexDigitChar_lower (d : Nat) (hd : d < 16) :
    isLowerHexDigit (hexDigitChar d) = true := by
  interval_cases d <;> decide

theorem hexDigitValue_hexDigitChar (d : Nat) (hd : d < 16) :
    hexDigitValue (hexDigitChar d) = some d := by
  interval_cases d <;> decide

theorem toHexDigits_mem_lower (k h : Nat) :
    ∀ c ∈ toHexDigits k h, isLowerHexDigit c = true := by
  induction k generalizing h with
  | zero => intro c hc; simp [toHexDigits] at hc
  | succ k ih =>
    intro c hc
    simp only [toHexDigits, List.mem_append, List.mem_singleton] at hc
    rcases hc with hc | rfl
    · exact ih _ c hc
    · exact hexDigitChar_lower _ (Nat.mod_lt _ (by norm_num))

theorem parseHexDigits_append (xs ys : List Char) (acc : Nat) :
    parseHexDigits (xs ++ ys) acc =
      (parseHexDigits xs acc).bind (fun a => parseHexDigits ys a) := by
  induction xs generalizing acc with
  | nil => simp [parseHexDigits]
  | cons c cs ih =>
    simp only [List.cons_append, parseHexDigits]
    cases hexDigitValue c with
    | none => simp
    | some d =>
      simp only
      split_ifs with hlt
      · exact ih _
      · rfl

theorem parseHexDigits_toHexDigits (k : Nat) :
    ∀ h acc, acc * 16^k + h % 16^k < 2^128 →
      parseHexDigits (toHexDigits k h) acc = some (acc * 16^k + h % 16^k) := by
  induction k with
  | zero => intro h acc hb; simp [toHexDigits, parseHexDigits, Nat.mod_one]
  | succ k ih =>
    intro h acc hb
    have hmod : h % 16^(k+1) = h % 16 + 16 * (h / 16 % 16^k) := by
      rw [pow_succ, Nat.mul_comm (16^k) 16, Nat.mod_mul]
    have hT : acc * 16^(k+1) + h % 16^(k+1) =
        (acc * 16^k + h / 16 % 16^k) * 16 + h % 16 := by
      rw [hmod, pow_succ]; ring
    rw [hT] at hb
    have hA : acc * 16^k + h / 16 % 16^k < 2^128 := by
      set A := acc * 16^k + h / 16 % 16^k with hAdef
      omega
    rw [toHexDigits, parseHexDigits_append, ih (h / 16) acc hA]
    simp only [Option.some_bind, parseHexDigits,
      hexDigitValue_hexDigitChar _ (Nat.mod_lt _ (by norm_num)), if_pos hb]
    rw [hT]

theorem from_str_radix_roundtrip (h : Nat) (hh : h < 2^128) :
    from_str_radix_16 (toHexDigits 32 h) = some h := by
  cases hd : toHexDigits 32 h with
  | nil =>
    have hlen := toHexDigits_length 32 h
    rw [hd] at hlen
    simp at hlen
  | cons c cs =>
    have hc : isLowerHexDigit c = true :=
      toHexDigits_mem_lower 32 h c (hd ▸ List.mem_cons_self c cs)
    have hcne : ¬(c = '+') := by
      intro he
      rw [he] at hc
      exact absurd hc (by decide)
    rw [from_str_radix_16, if_neg hcne, ← hd]
    have he : (16:Nat)^32 = 2^128 := by norm_num
    have hb : 0 * 16^32 + h % 16^32 < 2^128 := by
      have hm : h % 16^32 < 16^32 := Nat.mod_lt _ (by positivity)
      omega
    rw [parseHexDigits_toHexDigits 32 h 0 hb, Nat.zero_mul, Nat.zero_add,
      Nat.mod_eq_of_lt (lt_of_lt_of_eq hh he.symm)]

/-- C5: for any 128-bit value, the Display form of its `FileHash` is
exactly 32 lowercase zero-padded hex characters, and deserializing that
string yields the same `FileHash` back. -/
theorem fileHash_display_roundtrip (h : Nat) (hh : h < 2^128) :
    (fileHash_display ⟨h⟩).length = 32 ∧
    (∀ c ∈ (fileHash_display ⟨h⟩).toList, isLowerHexDigit c = true) ∧
    fileHash_deserialize (fileHash_display ⟨h⟩) = some ⟨h⟩ := by
  refine ⟨?_, ?_, ?_⟩
  · show (String.mk (toHexDigits 32 h)).length = 32
    simp [String.length, toHexDigits_length]
  · intro c hc
    exact toHexDigits_mem_lower 32 h c hc
  · show (from_str_radix_16 (toHexDigits 32 h)).map FileHash.mk = some ⟨h⟩
    rw [from_str_radix_roundtrip h hh]
    rfl

/-- Witness for C5 at the value 3405691582 (0xcafebabe). -/
theorem fileHash_display_roundtrip_witness :
    fileHash_deserialize (fileHash_display ⟨3405691582⟩) = some ⟨3405691582⟩ :=
  (fileHash_display_roundtrip 3405691582 (by norm_num)).2.2

theorem parseHexDigits_invalid (s : List Char) (c : Char) (hc : c ∈ s)
    (hv : hexDigitValue c = none) : ∀ acc, parseHexDigits s acc = none := by
  induction s with
  | nil => exact absurd hc (List.not_mem_nil c)
  | cons a as ih =>
    intro acc
    rcases List.mem_cons.mp hc with rfl | hmem
    · simp [parseHexDigits, hv]
    · simp only [parseHexDigits]
      cases hva : hexDigitValue a with
      | none => rfl
      | some d =>
        simp only
        split_ifs
        · exact ih hmem _
        · rfl

/-- C6 (counterexample): the single-character string "0" is not 32
lowercase hex characters, yet deserializing it succeeds with FileHash(0)
instead of failing with a format error. -/
theorem fileHash_deserialize_accepts_short_string :
    fileHash_deserialize "0" = some ⟨0⟩ ∧ "0".length ≠ 32 := by
  constructor
  · decide
  · decide

/-- C6 (amended): deserialization fails with a format error for every
string that is empty, for every string whose first character is neither a
base-16 digit nor '+', and for every string with a non-base-16-digit
character (a non-leading '+' included) after the first position; a bare
"+" fails, as does a digit string whose value overflows 128 bits
(exhibited at 33 'f' digits).  But the parser does not require exactly 32
lowercase hex digits: a '+' prefix, uppercase digits, and fewer or more
than 32 digits within the 128-bit range are accepted (exhibited at "+1",
"A", "100" and 33 '0' digits). -/
theorem fileHash_deserialize_failure_and_laxity :
    from_str_radix_16 [] = none ∧
    (∀ (a c : Char) (rest : List Char), c ∈ rest → hexDigitValue c = none →
      from_str_radix_16 (a :: rest) = none) ∧
    (∀ (a : Char) (rest : List Char), hexDigitValue a = none → a ≠ '+' →
      from_str_radix_16 (a :: rest) = none) ∧
    from_str_radix_16 ['+'] = none ∧
    from_str_radix_16 (List.replicate 33 'f') = none ∧
    from_str_radix_16 ['+', '1'] = some 1 ∧
    from_str_radix_16 ['A'] = some 10 ∧
    from_str_radix_16 ['1', '0', '0'] = some 256 ∧
    from_str_radix_16 (List.replicate 33 '0') = some 0 := by
  refine ⟨rfl, ?_, ?_, by decide, by decide, by decide, by decide, by decide, by decide⟩
  · intro a c rest hc hv
    rw [from_str_radix_16]
    by_cases ha : a = '+'
    · rw [if_pos ha]
      cases rest with
      | nil => exact absurd hc (List.not_mem_nil c)
      | cons b bs => simp only [List.isEmpty_cons, if_neg]
                     exact parseHexDigits_invalid _ c hc hv 0
    · rw [if_neg ha]
      exact parseHexDigits_invalid _ c (List.mem_cons_of_mem a hc) hv 0
  · intro a rest hv ha
    rw [from_str_radix_16, if_neg ha]
    exact parseHexDigits_invalid _ a (List.mem_cons_self a rest) hv 0

/-- Witness for the amended C6: a string whose only invalid character is a
non-leading '+' fails, and so does one with a non-hex first character. -/
theorem fileHash_deserialize_failure_witness :
    from_str_radix_16 ['1', '+'] = none ∧ from_str_radix_16 ['z'] = none :=
  ⟨fileHash_deserialize_failure_and_laxity.2.1 '1' '+' ['+'] (by decide) (by decide),
   fileHash_deserialize_failure_and_laxity.2.2.1 'z' [] (by decide) (by decide)⟩

/-! ### FileLen arithmetic and display -/

/-- `impl Add for FileLen` from `file.rs` lines 122-127: plain `u64`
addition `self.0 + rhs.0`, which wraps modulo `2^64` under the default
release profile (with overflow checks enabled it would panic instead). -/
def fileLen_add (a b : Nat) : Nat := (a + b) % 2^64

/-- `impl Sub for FileLen` from `file.rs` lines 135-140: plain `u64`
subtraction, wrapping modulo `2^64` (for operands below `2^64`). -/
def fileLen_sub (a b : Nat) : Nat := (a + 2^64 - b) % 2^64

/-- `impl Mul<u64> for FileLen` from `file.rs` lines 142-147: plain `u64`
multiplication, wrapping modulo `2^64`. -/
def fileLen_mul (a b : Nat) : Nat := (a * b) % 2^64

/-- `impl Sum for FileLen` from `file.rs` lines 149-153:
`iter.fold(FileLen(0), |a, b| a + b)`. -/
def fileLen_sum (xs : List Nat) : Nat := xs.foldl fileLen_add 0

/-- Modelled from the spec's words "supports sum/add/subtract/
scalar-multiply without implicit overflow wrapping": a checked `u64`
addition that refuses to produce a wrapped value, for comparison with the
plain addition the code actually performs. -/
def fileLen_add_trapping (a b : Nat) : Option Nat :=
  if a + b < 2^64 then some (a + b) else none

/-- C8 (counterexample): adding FileLen(u64::MAX) and FileLen(1) with the
code's plain addition yields the silently wrapped value 0, where the
claimed trapping semantics would refuse to produce a value. -/
theorem fileLen_add_wraps_on_overflow :
    fileLen_add (2^64 - 1) 1 = 0 ∧
    fileLen_add_trapping (2^64 - 1) 1 = none ∧
    (2^64 - 1) + 1 ≠ 0 := by
  refine ⟨by decide, by decide, by decide⟩

theorem fileLen_sum_foldl (xs : List Nat) : ∀ acc, acc < 2^64 →
    xs.foldl fileLen_add acc = (acc + xs.sum) % 2^64 := by
  induction xs with
  | nil =>
    intro acc h
    simp only [List.foldl_nil, List.sum_nil, Nat.add_zero]
    exact (Nat.mod_eq_of_lt h).symm
  | cons x xs ih =>
    intro acc h
    simp only [List.foldl_cons, List.sum_cons]
    show List.foldl fileLen_add ((acc + x) % 2^64) xs = (acc + (x + xs.sum)) % 2^64
    rw [ih ((acc + x) % 2^64) (Nat.mod_lt _ (by positivity)), Nat.mod_add_mod,
      Nat.add_assoc]

/-- C8 (amended): the FileLen operations use plain u64 arithmetic, so in
default release builds an out-of-range result wraps modulo 2^64 rather
than trapping (summation computes the total modulo 2^64); in-range
results are exact. -/
theorem fileLen_ops_wrap_mod :
    (∀ xs : List Nat, fileLen_sum xs = xs.sum % 2^64) ∧
    (∀ a b : Nat, a + b < 2^64 → fileLen_add a b = a + b) ∧
    (∀ a b : Nat, b ≤ a → a < 2^64 → fileLen_sub a b = a - b) ∧
    (∀ a b : Nat, a * b < 2^64 → fileLen_mul a b = a * b) := by
  have h64 : (2:Nat)^64 = 18446744073709551616 := by norm_num
  refine ⟨fun xs => ?_, fun a b h => Nat.mod_eq_of_lt h, fun a b hba ha => ?_,
    fun a b h => Nat.mod_eq_of_lt h⟩
  · rw [fileLen_sum, fileLen_sum_foldl xs 0 (by positivity), Nat.zero_add]
  · rw [fileLen_sub, h64] at *
    omega

/-- Witness for the amended C8 at in-range operands. -/
theorem fileLen_ops_wrap_mod_witness :
    fileLen_add 3 4 = 7 ∧ fileLen_sub 10 4 = 6 ∧ fileLen_mul 6 7 = 42 :=
  ⟨fileLen_ops_wrap_mod.2.1 3 4 (by norm_num),
   fileLen_ops_wrap_mod.2.2.1 10 4 (by norm_num) (by norm_num),
   fileLen_ops_wrap_mod.2.2.2 6 7 (by norm_num)⟩

/-- Exponent selection in the bytesize crate's `to_string(bytes, false)`
(the `Display` impl `FileLen` delegates to): `(size.ln() / 1000f64.ln())
as usize`, written for the `u64` range as explicit base-1000 threshold
comparisons so it evaluates by kernel reduction. -/
def byteSize_exp (n : Nat) : Nat :=
  if n < 1000 then 0
  else if n < 1000000 then 1
  else if n < 1000000000 then 2
  else if n < 1000000000000 then 3
  else if n < 1000000000000000 then 4
  else if n < 1000000000000000000 then 5
  else 6

/-- Unit strings of `bytesize::to_string(bytes, false)`: `UNITS[exp-1]`
out of "KMGTPE", followed by "B". -/
def byteUnit (e : Nat) : String :=
  if e = 1 then "KB" else if e = 2 then "MB" else if e = 3 then "GB"
  else if e = 4 then "TB" else if e = 5 then "PB" else "EB"

/-- One-decimal rendering of the ratio `n / den`, rounding half to even as
Rust's `{:.1}` float formatting does (the claim's input divides exactly,
so no f64 representation error is in play there). -/
def fmtOneDecimal (n den : Nat) : String :=
  let q := 10 * n / den
  let r := 10 * n % den
  let t := if 2 * r < den then q
           else if den < 2 * r then q + 1
           else if q % 2 = 0 then q else q + 1
  Nat.repr (t / 10) ++ "." ++ Nat.repr (t % 10)

/-- `bytesize::to_string(bytes, false)`: below 1000 bytes a plain byte
count, otherwise the value scaled by `1000^exp` with one decimal and the
unit abbreviation. -/
def byteSize_to_string (n : Nat) : String :=
  if n < 1000 then Nat.repr n ++ " B"
  else fmtOneDecimal n (1000 ^ byteSize_exp n) ++ " " ++ byteUnit (byteSize_exp n)

/-- `impl Display for FileLen` from `file.rs` lines 164-168:
`f.pad(format!("{}", ByteSize(self.0)).as_str())`; with default formatter
options `pad` is the identity. -/
def fileLen_display (n : Nat) : String := byteSize_to_string n

/-- C9: formatting FileLen(16000) yields exactly "16.0 KB". -/
theorem fileLen_display_16000 : fileLen_display 16000 = "16.0 KB" := by decide
